import Mathlib

set_option maxRecDepth 100000

/-!
Shallow embedding of the tar archive reader from `src/src/archive.rs`
(crate `tar-rs`, async port).  The byte source is modelled as the list of
bytes not yet consumed together with the consumed-byte position counter;
reads are maximal (a reader hands over everything it has, up to the
requested amount), which collapses the retry loops of the async code.
Machine integers (`u64`) are modelled as `Nat` with explicit `2 ^ 64`
overflow checks exactly where the source uses `checked_add` / `checked_sub`.
Fallible operations return `Except String` carrying the source's error
message, paired with the mutated archive state (the Rust code mutates the
shared `ArchiveInner` in place even on error paths).

The crate files `header.rs`, `entry.rs` and `pax.rs` are not part of the
sources under verification; the few operations of theirs that
`archive.rs` calls are modelled from the specification and marked as such
in their doc comments.
-/

namespace TarRs

/-- A sequence of bytes (each intended to be `< 256`). -/
abbrev Bytes := List Nat

/-- `2 ^ 64`, the modulus of the `u64` arithmetic used for sizes and
positions in `archive.rs`. -/
def U64_MOD : Nat := 2 ^ 64

/-- `i64::MAX`, the largest skip amount `i64::try_from` accepts in the
seekable branch of `EntriesFieldsInner::skip`. -/
def I64_MAX : Nat := 2 ^ 63 - 1

/-- The shared archive state (`ArchiveInner` in `src/src/archive.rs`):
the consumed-byte position `pos` (an `AtomicU64` in the source), the
bytes of the underlying stream not yet consumed, and the `ignore_zeros`
configuration flag.  The remaining configuration flags of the source
structure (mask, xattr/permission/ownership/mtime/overwrite) are only
copied into emitted entries and are omitted. -/
structure ArchiveInner where
  pos : Nat
  input : Bytes
  ignore_zeros : Bool
  deriving DecidableEq, Repr

/-- `try_read_all` from `src/src/archive.rs` (lines 712-727): attempt to
fill a buffer of `n` bytes.  End of input before anything was read yields
`ok none` (the Rust `Ok(false)`); end of input mid-buffer is the error
"failed to read entire block"; otherwise the `n` bytes are returned and
consumed. -/
def tryReadAll (a : ArchiveInner) (n : Nat) : Except String (Option Bytes) × ArchiveInner :=
  if n = 0 then (.ok (some []), a)
  else if a.input.length = 0 then (.ok none, a)
  else if a.input.length < n then
    (.error "failed to read entire block",
      { a with pos := a.pos + a.input.length, input := [] })
  else
    (.ok (some (a.input.take n)),
      { a with pos := a.pos + n, input := a.input.drop n })

/-- The non-seekable branch of `EntriesFieldsInner::skip` (lines 604-614):
discard `amt` bytes by reading them; end of input first is the error
"unexpected EOF during skip". -/
def skipRead (a : ArchiveInner) (amt : Nat) : Except String Unit × ArchiveInner :=
  if a.input.length < amt then
    (.error "unexpected EOF during skip",
      { a with pos := a.pos + a.input.length, input := [] })
  else
    (.ok (), { a with pos := a.pos + amt, input := a.input.drop amt })

/-- The seekable branch of `EntriesFieldsInner::skip` (lines 599-603):
`i64::try_from(amt)` fails with "seek position out of bounds" when the
amount exceeds `i64::MAX`; otherwise reposition the source forward by
`amt`, the position counter being replaced by the new absolute position
(`poll_complete`, lines 695-705).  Seeking past the end of a file is
permitted. -/
def skipSeek (a : ArchiveInner) (amt : Nat) : Except String Unit × ArchiveInner :=
  if I64_MAX < amt then (.error "seek position out of bounds", a)
  else (.ok (), { a with pos := a.pos + amt, input := a.input.drop amt })

/-- The `len`-byte field of a header block starting at offset `off`. -/
def field (bs : Bytes) (off len : Nat) : Bytes :=
  (bs.drop off).take len

/-- Modelled from the spec: numeric header fields are ASCII-octal,
NUL- or space-terminated (`header.rs` is not under `src/`).  Leading
spaces are skipped; the digit run ends at the first NUL or space; an
empty or non-octal run fails. -/
def parseOctal (f : Bytes) : Option Nat :=
  let digits := (f.dropWhile (fun b => b == 32)).takeWhile (fun b => !(b == 0) && !(b == 32))
  if digits = [] then none
  else if digits.all (fun b => decide (48 ≤ b) && decide (b ≤ 55)) then
    some (digits.foldl (fun acc b => acc * 8 + (b - 48)) 0)
  else none

/-- Modelled from the spec: a numeric field whose first byte has the high
bit set is GNU base-256 — the remaining bits form a big-endian integer
(the negative two's-complement range is not meaningful for sizes and is
not modelled); otherwise the field is ASCII-octal. -/
def parseNumeric (f : Bytes) : Option Nat :=
  match f with
  | [] => none
  | b0 :: rest =>
    if 128 ≤ b0 then some (rest.foldl (fun acc b => acc * 256 + b) (b0 - 128))
    else parseOctal f

/-- Modelled from the spec: an ASCII-decimal number as used by PAX record
lengths and values; parsing into `u64` fails on overflow. -/
def parseDecimal (v : Bytes) : Option Nat :=
  if v = [] then none
  else if v.all (fun b => decide (48 ≤ b) && decide (b ≤ 57)) then
    let n := v.foldl (fun acc b => acc * 10 + (b - 48)) 0
    if n < U64_MOD then some n else none
  else none

/-- Modelled from the spec: PAX record parsing (`pax.rs` is not under
`src/`).  Repeatedly read a decimal run up to the first space, parse it
as the record length (which counts the whole record including the length
digits and the trailing newline), slice that many bytes, and split the
remainder on the first 0x3D byte into key and value; a malformed record
stops the scan.  `fuel` bounds the recursion; `buf.length + 1` always
suffices since every record consumes at least one byte. -/
def paxRecordsF : Nat → Bytes → List (Bytes × Bytes)
  | 0, _ => []
  | fuel + 1, buf =>
    if buf = [] then []
    else
      let lenDigits := buf.takeWhile (fun b => decide (48 ≤ b) && decide (b ≤ 57))
      match parseDecimal lenDigits with
      | none => []
      | some len =>
        if len ≤ lenDigits.length then []
        else if buf.length < len then []
        else if buf.get? lenDigits.length ≠ some 32 then []
        else
          let body := (buf.take len).drop (lenDigits.length + 1)
          let key := body.takeWhile (fun b => !(b == 61))
          let rest := body.drop (key.length + 1)
          let value := if rest.getLast? = some 10 then rest.dropLast else rest
          (key, value) :: paxRecordsF fuel (buf.drop len)

/-- The records of a PAX buffer. -/
def paxRecords (buf : Bytes) : List (Bytes × Bytes) :=
  paxRecordsF (buf.length + 1) buf

/-- Modelled from the spec: `pax_extensions_value` — look a key up in an
accumulated PAX buffer; lookup returns the last record with the given
key, and the value is parsed as a decimal `u64`. -/
def pax_extensions_value (buf : Bytes) (key : Bytes) : Option Nat :=
  (((paxRecords buf).filter (fun r => r.1 == key)).getLast?).bind (fun r => parseDecimal r.2)

/-- The PAX key "size". -/
def PAX_SIZE : Bytes := [115, 105, 122, 101]

/-- The PAX key "uid". -/
def PAX_UID : Bytes := [117, 105, 100]

/-- The PAX key "gid". -/
def PAX_GID : Bytes := [103, 105, 100]

/-- A parsed header: the raw 512 bytes, plus the uid/gid overrides that
`Header::set_uid` / `Header::set_gid` (from the spec-modelled header
codec) record.  In the source those setters rewrite the octal field in
place; recording the override separately is observably the same for
every accessor and keeps the checksum bytes (already verified at that
point) untouched. -/
structure Header where
  bytes : Bytes
  uidOv : Option Nat := none
  gidOv : Option Nat := none
  deriving DecidableEq, Repr

/-- Modelled from the spec: `Header::set_uid`. -/
def Header.setUid (h : Header) (u : Nat) : Header :=
  { h with uidOv := some u }

/-- Modelled from the spec: `Header::set_gid`. -/
def Header.setGid (h : Header) (g : Nat) : Header :=
  { h with gidOv := some g }

/-- Modelled from the spec: `Header::cksum` — the ASCII-octal number
stored in the checksum field (offset 148, 8 bytes). -/
def Header.cksumVal (h : Header) : Option Nat :=
  parseOctal (field h.bytes 148 8)

/-- Modelled from the spec: `Header::entry_size` — the numeric size field
(offset 124, 12 bytes). -/
def Header.entrySizeRaw (h : Header) : Option Nat :=
  parseNumeric (field h.bytes 124 12)

/-- Modelled from the spec: the type-flag byte at offset 156. -/
def Header.typeflag (h : Header) : Nat :=
  (h.bytes.drop 156).headD 0

/-- Modelled from the spec: the effective uid of a header — the recorded
override if a PAX override was applied, otherwise the numeric field at
offset 108. -/
def Header.uidVal (h : Header) : Option Nat :=
  match h.uidOv with
  | some u => some u
  | none => parseNumeric (field h.bytes 108 8)

/-- Modelled from the spec: the effective gid of a header (field at
offset 116). -/
def Header.gidVal (h : Header) : Option Nat :=
  match h.gidOv with
  | some g => some g
  | none => parseNumeric (field h.bytes 116 8)

/-- Modelled from the spec: `Header::as_ustar` succeeds when magic is
"ustar\0" and version is "00". -/
def Header.isUstar (h : Header) : Bool :=
  field h.bytes 257 6 == [117, 115, 116, 97, 114, 0] && field h.bytes 263 2 == [48, 48]

/-- Modelled from the spec: `Header::as_gnu` succeeds when magic is
"ustar " and version is " \0". -/
def Header.isGnu (h : Header) : Bool :=
  field h.bytes 257 6 == [117, 115, 116, 97, 114, 32] && field h.bytes 263 2 == [32, 0]

/-- One segment of an entry body plan (`EntryIo` in the source): `data n`
is a bounded reader of `n` bytes from the archive stream, `pad n`
synthesizes `n` zero bytes. -/
inductive EntryIo where
  | data (n : Nat)
  | pad (n : Nat)
  deriving DecidableEq, Repr

/-- The fields of an emitted entry (`EntryFields` in `entry.rs`,
restricted to the parts `archive.rs` constructs and the claims mention;
the copied configuration flags are omitted). -/
structure EntryFields where
  size : Nat
  header_pos : Nat
  file_pos : Nat
  data : List EntryIo
  header : Header
  long_pathname : Option Bytes := none
  long_linkname : Option Bytes := none
  pax_extensions : Option Bytes := none
  deriving DecidableEq, Repr

/-- The iterator state (`EntriesFieldsInner`): the shared archive state,
whether a seekable archive was supplied, the absolute position of the
next header, the raw-mode flag, and the accumulated PAX buffer. -/
structure EntriesFieldsInner where
  archive : ArchiveInner
  seekable : Bool
  next : Nat
  raw : Bool
  pax_extensions : Option Bytes
  deriving DecidableEq, Repr

/-- `EntriesFieldsInner::skip` (lines 598-616): reposition when a
seekable archive was supplied, otherwise read and discard. -/
def skip (s : EntriesFieldsInner) (amt : Nat) : Except String Unit × EntriesFieldsInner :=
  if s.seekable then
    let r := skipSeek s.archive amt
    (r.1, { s with archive := r.2 })
  else
    let r := skipRead s.archive amt
    (r.1, { s with archive := r.2 })

/-- The header-reading loop of `next_entry_raw` (lines 344-367): skip to
the next-header position, read a 512-byte block; end of input at the
block boundary means no more entries; a non-zero block is the next
header (advancing `next` by 512); an all-zero block terminates unless
`ignore_zeros` is set, in which case the loop advances 512 bytes and
retries, moving `header_pos` along.  `fuel` bounds the recursion;
`input.length + 1` always suffices since every retry consumes 512
bytes. -/
def readHeaderLoopF : Nat → EntriesFieldsInner → Nat →
    Except String (Option (Bytes × Nat)) × EntriesFieldsInner
  | 0, s, _ => (.error "loop fuel exhausted", s)
  | fuel + 1, s, headerPos =>
    match skip s (s.next - s.archive.pos) with
    | (.error e, s1) => (.error e, s1)
    | (.ok _, s1) =>
      match tryReadAll s1.archive 512 with
      | (.error e, a2) => (.error e, { s1 with archive := a2 })
      | (.ok none, a2) => (.ok none, { s1 with archive := a2 })
      | (.ok (some block), a2) =>
        if !(block.all (fun i => i == 0)) then
          (.ok (some (block, headerPos)), { s1 with archive := a2, next := s1.next + 512 })
        else if !s1.archive.ignore_zeros then
          (.ok none, { s1 with archive := a2 })
        else
          readHeaderLoopF fuel { s1 with archive := a2, next := s1.next + 512 } (s1.next + 512)

/-- The header-reading loop at its canonical fuel. -/
def readHeaderLoop (s : EntriesFieldsInner) (headerPos : Nat) :
    Except String (Option (Bytes × Nat)) × EntriesFieldsInner :=
  readHeaderLoopF (s.archive.input.length + 1) s headerPos

/-- `next_entry_raw` (lines 341-428): run the header loop, verify the
checksum (the sum of the block bytes outside the checksum field plus
`8 * 32`, compared with the stored ASCII-octal number), apply PAX
`size`/`uid`/`gid` overrides when a PAX buffer is present (`size` only
when the header size field is 0), build the entry, and advance `next`
past the body rounded up to a 512-byte multiple with `u64` overflow
checks. -/
def nextEntryRaw (s : EntriesFieldsInner) :
    Except String (Option EntryFields) × EntriesFieldsInner :=
  match readHeaderLoop s s.next with
  | (.error e, s1) => (.error e, s1)
  | (.ok none, s1) => (.ok none, s1)
  | (.ok (some (block, headerPos)), s1) =>
    let sum := (block.take 148).foldl (fun a b => a + b) 0
        + (block.drop 156).foldl (fun a b => a + b) 0 + 8 * 32
    match Header.cksumVal { bytes := block } with
    | none => (.error "numeric field was not a number", s1)
    | some cksum =>
      if sum ≠ cksum then (.error "archive header checksum mismatch", s1)
      else
        let pax_size := s1.pax_extensions.bind (fun p => pax_extensions_value p PAX_SIZE)
        let header : Header := { bytes := block }
        let header := match s1.pax_extensions.bind (fun p => pax_extensions_value p PAX_UID) with
          | some u => header.setUid u
          | none => header
        let header := match s1.pax_extensions.bind (fun p => pax_extensions_value p PAX_GID) with
          | some g => header.setGid g
          | none => header
        match header.entrySizeRaw with
        | none => (.error "numeric field was not a number", s1)
        | some hsize =>
          let size := if hsize = 0 then pax_size.getD 0 else hsize
          let ret : EntryFields :=
            { size := size, header_pos := headerPos, file_pos := s1.next,
              data := [.data size], header := header }
          if U64_MOD ≤ size + 511 then (.error "size overflow", s1)
          else
            let size2 := (size + 511) - (size + 511) % 512
            if U64_MOD ≤ s1.next + size2 then (.error "size overflow", s1)
            else (.ok (some ret), { s1 with next := s1.next + size2 })

/-- Modelled from the spec: `EntryFields::read_all` (`entry.rs` is not
under `src/`) — read an entry's whole payload: data segments consume
archive stream bytes (a bounded reader stops early at end of input
without error), pad segments synthesize zeros. -/
def readAll (e : EntryFields) (a : ArchiveInner) : Bytes × ArchiveInner :=
  e.data.foldl
    (fun acc io =>
      match io with
      | .pad n => (acc.1 ++ List.replicate n 0, acc.2)
      | .data n =>
        let k := min n acc.2.input.length
        (acc.1 ++ acc.2.input.take k,
          { acc.2 with pos := acc.2.pos + k, input := acc.2.input.drop k }))
    (([] : Bytes), a)

/-- Whether the entry's header is a recognized (GNU or ustar) header
(line 451-452). -/
def isRecognizedHeader (e : EntryFields) : Bool :=
  e.header.isGnu || e.header.isUstar

/-- The entry's type-flag byte. -/
def typeflagOf (e : EntryFields) : Nat :=
  e.header.typeflag

/-- One GNU sparse descriptor as stored in a header: the raw 12-byte
offset and 12-byte numbytes fields (layout modelled from the spec,
`header.rs` is not under `src/`). -/
structure GnuSparseHeader where
  offsetBytes : Bytes
  numbytesBytes : Bytes
  deriving DecidableEq, Repr

/-- Modelled from the spec: a descriptor is skipped when it is all
zeros. -/
def GnuSparseHeader.isEmpty (b : GnuSparseHeader) : Bool :=
  b.offsetBytes.all (fun i => i == 0) && b.numbytesBytes.all (fun i => i == 0)

/-- Modelled from the spec: `GnuSparseHeader::offset`. -/
def GnuSparseHeader.offset (b : GnuSparseHeader) : Option Nat :=
  parseNumeric b.offsetBytes

/-- Modelled from the spec: `GnuSparseHeader::length`. -/
def GnuSparseHeader.length (b : GnuSparseHeader) : Option Nat :=
  parseNumeric b.numbytesBytes

/-- `count` consecutive 24-byte sparse records from a byte region. -/
def sparseRecordsFrom (bs : Bytes) (count : Nat) : List GnuSparseHeader :=
  (List.range count).map (fun i => ⟨field bs (24 * i) 12, field bs (24 * i + 12) 12⟩)

/-- Modelled from the spec: the four inline sparse descriptors of a GNU
header live at offset 386, 96 bytes. -/
def gnuSparseInline (h : Header) : List GnuSparseHeader :=
  sparseRecordsFrom (field h.bytes 386 96) 4

/-- Modelled from the spec: the GNU `isextended` flag at offset 482. -/
def gnuIsExtended (h : Header) : Bool :=
  !((field h.bytes 482 1).headD 0 == 0)

/-- Modelled from the spec: the GNU `realsize` field at offset 483,
12 bytes. -/
def gnuRealSize (h : Header) : Option Nat :=
  parseNumeric (field h.bytes 483 12)

/-- Modelled from the spec: a GNU sparse extension block holds 21
records of 24 bytes. -/
def extSparseRecords (bs : Bytes) : List GnuSparseHeader :=
  sparseRecordsFrom bs 21

/-- Modelled from the spec: the `isextended` byte of an extension block
at offset 504. -/
def extIsExtended (bs : Bytes) : Bool :=
  !((bs.drop 504).headD 0 == 0)

/-- The running state of the sparse assembler: the logical offset
reached, the remaining header-size budget, and the body plan built so
far. -/
structure SparseSt where
  cur : Nat
  remaining : Nat
  data : List EntryIo
  deriving DecidableEq, Repr

/-- The `add_block` closure of `parse_sparse_header` (lines 532-563):
skip all-zero descriptors; otherwise parse offset and length, fail on a
non-512-aligned previous block when length is nonzero, fail on an
out-of-order or overlapping offset, pad the gap up to the offset, then
record the data segment, advancing `cur` (with a `u64` overflow check)
and decreasing `remaining` (with an underflow check). -/
def addBlock (size : Nat) (st : SparseSt) (b : GnuSparseHeader) : Except String SparseSt :=
  if b.isEmpty then .ok st
  else
    match b.offset with
    | none => .error "numeric field was not a number"
    | some off =>
      match b.length with
      | none => .error "numeric field was not a number"
      | some len =>
        if len ≠ 0 ∧ (size - st.remaining) % 512 ≠ 0 then
          .error "previous block in sparse file was not aligned to 512-byte boundary"
        else if off < st.cur then
          .error "out of order or overlapping sparse blocks"
        else
          let data1 := if st.cur < off then st.data ++ [.pad (off - st.cur)] else st.data
          if U64_MOD ≤ off + len then
            .error "more bytes listed in sparse file than u64 can hold"
          else if st.remaining < len then
            .error "sparse file consumed more data than the header listed"
          else .ok ⟨off + len, st.remaining - len, data1 ++ [.data len]⟩

/-- The extension-block loop of `parse_sparse_header` (lines 567-580):
while the previous block was flagged extended, read one 512-byte
extension block (end of input is "failed to read extension"), advance
`next` by 512, and feed its 21 records to `add_block`.  `fuel` bounds
the recursion; `input.length + 1` always suffices. -/
def parseSparseExtF : Nat → Nat → EntriesFieldsInner → SparseSt →
    Except String SparseSt × EntriesFieldsInner
  | 0, _, s, _ => (.error "loop fuel exhausted", s)
  | fuel + 1, size, s, st =>
    match tryReadAll s.archive 512 with
    | (.error e, a) => (.error e, { s with archive := a })
    | (.ok none, a) => (.error "failed to read extension", { s with archive := a })
    | (.ok (some bs), a) =>
      let s1 := { s with archive := a, next := s.next + 512 }
      match (extSparseRecords bs).foldlM (addBlock size) st with
      | .error e => (.error e, s1)
      | .ok st1 =>
        if extIsExtended bs then parseSparseExtF fuel size s1 st1
        else (.ok st1, s1)

/-- `parse_sparse_header` (lines 496-596): for a GNU sparse entry,
truncate the body plan, run `add_block` over the inline descriptors and
any extension blocks starting from `cur = 0`, `remaining = entry.size`,
then require `cur` to equal the header's declared real size, set the
entry's size to `cur`, and require `remaining` to be zero. -/
def parseSparseHeader (s : EntriesFieldsInner) (e : EntryFields) :
    Except String EntryFields × EntriesFieldsInner :=
  if e.header.typeflag ≠ 83 then (.ok e, s)
  else if !e.header.isGnu then (.error "sparse entry type listed but not GNU header", s)
  else
    match (gnuSparseInline e.header).foldlM (addBlock e.size) ⟨0, e.size, []⟩ with
    | .error er => (.error er, s)
    | .ok st1 =>
      match (if gnuIsExtended e.header then
              parseSparseExtF (s.archive.input.length + 1) e.size s st1
            else (.ok st1, s)) with
      | (.error er, s1) => (.error er, s1)
      | (.ok st2, s1) =>
        match gnuRealSize e.header with
        | none => (.error "numeric field was not a number", s1)
        | some rs =>
          if st2.cur ≠ rs then
            (.error "mismatch in sparse file chunks and size in header", s1)
          else if 0 < st2.remaining then
            (.error "mismatch in sparse file chunks and entry size in header", s1)
          else (.ok { e with size := st2.cur, data := st2.data }, s1)

/-- The coalescing loop of `next_entry` (lines 438-493): pull raw
entries; end of archive after an auxiliary entry was consumed
(`processed > 1`) is a dangling-auxiliary error; a recognized GNU
long-name ('L'), long-link ('K') or PAX-extensions ('x') entry stores
its payload (a second one of the same kind before a real member is a
duplicate error) and loops; any other entry receives the accumulated
long name, long link and PAX buffer (which is taken out of the iterator
state), runs the sparse assembler, and is returned.  `fuel` bounds the
recursion; `input.length + 1` always suffices since every auxiliary
entry consumes at least its 512-byte header. -/
def nextEntryLoopF : Nat → EntriesFieldsInner → Option Bytes → Option Bytes → Nat →
    Except String (Option EntryFields) × EntriesFieldsInner
  | 0, s, _, _, _ => (.error "loop fuel exhausted", s)
  | fuel + 1, s, gnuLongname, gnuLonglink, processed =>
    match nextEntryRaw s with
    | (.error e, s1) => (.error e, s1)
    | (.ok none, s1) =>
      if processed + 1 > 1 then
        (.error "members found describing a future member but no future member found", s1)
      else (.ok none, s1)
    | (.ok (some e), s1) =>
      let recognized := isRecognizedHeader e
      if recognized && typeflagOf e == 76 then
        if gnuLongname.isSome then
          (.error "two long name entries describing the same member", s1)
        else
          let r := readAll e s1.archive
          nextEntryLoopF fuel { s1 with archive := r.2 } (some r.1) gnuLonglink (processed + 1)
      else if recognized && typeflagOf e == 75 then
        if gnuLonglink.isSome then
          (.error "two long name entries describing the same member", s1)
        else
          let r := readAll e s1.archive
          nextEntryLoopF fuel { s1 with archive := r.2 } gnuLongname (some r.1) (processed + 1)
      else if recognized && typeflagOf e == 120 then
        if s1.pax_extensions.isSome then
          (.error "two pax extensions entries describing the same member", s1)
        else
          let r := readAll e s1.archive
          nextEntryLoopF fuel { s1 with archive := r.2, pax_extensions := some r.1 }
            gnuLongname gnuLonglink (processed + 1)
      else
        let fields := { e with
          long_pathname := gnuLongname
          long_linkname := gnuLonglink
          pax_extensions := s1.pax_extensions }
        let s2 := { s1 with pax_extensions := none }
        match parseSparseHeader s2 fields with
        | (.error er, s3) => (.error er, s3)
        | (.ok f2, s3) => (.ok (some f2), s3)

/-- `next_entry` (lines 430-494): raw mode returns the next physical
entry; otherwise the coalescing loop runs with empty long-name and
long-link buffers and `processed = 0`. -/
def nextEntry (s : EntriesFieldsInner) :
    Except String (Option EntryFields) × EntriesFieldsInner :=
  if s.raw then nextEntryRaw s
  else nextEntryLoopF (s.archive.input.length + 1) s none none 0

/-- `Archive::_entries` (lines 255-272): constructing the iterator fails
unless the consumed-byte position is 0; otherwise the iterator starts at
`next = 0`, non-raw, with no PAX buffer. -/
def _entries (a : ArchiveInner) (seekable : Bool) : Except String EntriesFieldsInner :=
  if a.pos ≠ 0 then .error "cannot call entries unless archive is at position 0"
  else .ok { archive := a, seekable := seekable, next := 0, raw := false,
             pax_extensions := none }

/-- `Archive::entries` (lines 138-144): `_entries` with no seekable
archive. -/
def entries (a : ArchiveInner) : Except String EntriesFieldsInner :=
  _entries a false

/-- `Archive::entries_with_seek` (lines 244-251): `_entries` with a
seekable archive. -/
def entries_with_seek (a : ArchiveInner) : Except String EntriesFieldsInner :=
  _entries a true

/-- The state of the `EntriesFields` stream (lines 65-78): either it
holds the iterator state or it is the terminal `Empty` state.  The
transient `Future` state of the pin-projected stream resolves
synchronously in this model. -/
inductive EntriesFieldsState where
  | value (v : EntriesFieldsInner)
  | empty
  deriving DecidableEq, Repr

deriving instance DecidableEq for Except

/-- The observable outcome of one `poll_next` (lines 644-668): an item
(an entry or an error), `Ready(None)`, or the panic that the source
raises when polled in the `Empty` state. -/
inductive PollNext where
  | entry (r : Except String EntryFields)
  | done
  | panicked
  deriving DecidableEq, Repr

/-- `Stream::poll_next` for `EntriesFields` (lines 644-668) together
with `EntriesFields::call` (lines 626-632): in the `Value` state run
`next_entry`; an entry or an error is yielded with the state put back to
`Value` (with the advanced inner state); end of archive yields
`Ready(None)` and moves to `Empty`; polling in `Empty` panics. -/
def pollNext : EntriesFieldsState → PollNext × EntriesFieldsState
  | .empty => (.panicked, .empty)
  | .value v =>
    match nextEntry v with
    | (.error e, v1) => (.entry (.error e), .value v1)
    | (.ok (some en), v1) => (.entry (.ok en), .value v1)
    | (.ok none, _) => (.done, .empty)

/-- `FusedStream::is_terminated` (lines 635-639). -/
def is_terminated : EntriesFieldsState → Bool
  | .empty => true
  | .value _ => false

/-- An abstract filesystem action performed by `_unpack`; the filesystem
itself is outside the embedding, so actions are recorded in order. -/
inductive UnpackAction where
  | createDirAll (dst : List Nat)
  | unpackIn (e : EntryFields) (dst : List Nat)
  deriving DecidableEq, Repr

/-- Whether an entry is a directory entry (`EntryType::Directory`,
type-flag byte 0x35). -/
def isDirEntry (e : EntryFields) : Bool :=
  typeflagOf e == 53

/-- The iteration loop of `_unpack` (lines 290-302): stream the entries;
an iteration error is wrapped as "failed to iterate over archive";
directory entries are queued, all others are unpacked immediately
(`unpack_in` is not under `src/` and is modelled from the spec as an
abstract always-succeeding action).  Returns the immediate actions in
order together with the queued directory entries. -/
def unpackLoopF : Nat → EntriesFieldsInner → List Nat →
    Except String (List UnpackAction × List EntryFields)
  | 0, _, _ => .error "loop fuel exhausted"
  | fuel + 1, s, dst =>
    match nextEntry s with
    | (.error _, _) => .error "failed to iterate over archive"
    | (.ok none, _) => .ok ([], [])
    | (.ok (some e), s1) =>
      if isDirEntry e then
        (unpackLoopF fuel s1 dst).map (fun r => (r.1, e :: r.2))
      else
        (unpackLoopF fuel s1 dst).map (fun r => (.unpackIn e dst :: r.1, r.2))

/-- `Archive::_unpack` (lines 274-305): when the destination does not
exist, create it (with parents); canonicalize the destination, falling
back to the literal path; construct the iterator (which checks the
position); unpack non-directory entries immediately in archive order,
queueing directory entries; finally unpack the queued directories in
order.  `dstExists` and `canon` stand for the outcomes of the two
filesystem probes, which are outside the embedding. -/
def _unpack (dstExists : Bool) (canon : Option (List Nat)) (dst : List Nat)
    (a : ArchiveInner) : Except String (List UnpackAction) :=
  let pre : List UnpackAction := if dstExists then [] else [.createDirAll dst]
  let dstPath := canon.getD dst
  match _entries a false with
  | .error e => .error e
  | .ok s =>
    match unpackLoopF (a.input.length + 1) s dstPath with
    | .error e => .error e
    | .ok r => .ok (pre ++ r.1 ++ r.2.map (fun e => .unpackIn e dstPath))

/-- The list of entries the iterator yields, when iteration reaches end
of archive without an error within `fuel` advances (used to state
properties of `_unpack`). -/
def entriesListF : Nat → EntriesFieldsInner → Option (List EntryFields)
  | 0, _ => none
  | fuel + 1, s =>
    match nextEntry s with
    | (.error _, _) => none
    | (.ok none, _) => some []
    | (.ok (some e), s1) => (entriesListF fuel s1).map (fun es => e :: es)

/-- The checksum reference value exactly as claim C1 words it: the sum
of all 512 bytes of the block with the 8 checksum bytes (offsets
148..155) each replaced by ASCII space (0x20).  This is the spec-side
counterpart of the sum computed inside `nextEntryRaw`. -/
def checksumSpacedSum (block : Bytes) : Nat :=
  (block.take 148 ++ List.replicate 8 32 ++ block.drop 156).foldl (fun a b => a + b) 0

/-- "Rounded up to a multiple of 512" exactly as claim C5 words it: the
spec-side counterpart of the bit-masked rounding in `nextEntryRaw`. -/
def roundUp512 (n : Nat) : Nat :=
  ((n + 511) / 512) * 512

/-- Overwrite the bytes of `bs` starting at `off` with `vs` (test-input
construction helper). -/
def patch (bs : Bytes) (off : Nat) (vs : Bytes) : Bytes :=
  bs.take off ++ vs ++ bs.drop (off + vs.length)

/-- An ASCII-octal numeric field of `width` bytes: zero-padded digits
followed by a NUL (test-input construction helper). -/
def octalField (n width : Nat) : Bytes :=
  let ds := (Nat.toDigits 8 n).map Char.toNat
  List.replicate (width - 1 - ds.length) 48 ++ ds ++ [0]

/-- Store a correct checksum into a block (test-input construction
helper). -/
def withCksum (bs : Bytes) : Bytes :=
  patch bs 148 (octalField (checksumSpacedSum bs) 8)

/-- An old-style header block with the given type flag and size field,
checksummed (test-input construction helper). -/
def mkOldHeader (tf : Nat) (sizeField : Bytes) : Bytes :=
  withCksum (patch (patch (List.replicate 512 0) 124 sizeField) 156 [tf])

/-- A GNU header block (magic "ustar ", version " \0") with the given
type flag and size field, checksummed (test-input construction
helper). -/
def mkGnuHeader (tf : Nat) (sizeField : Bytes) : Bytes :=
  withCksum (patch (patch (patch (patch (List.replicate 512 0) 124 sizeField) 156 [tf])
    257 [117, 115, 116, 97, 114, 32]) 263 [32, 0])

/-- A fresh iterator state over the given stream, as built by
`_entries` on an archive at position 0 (test-input helper). -/
def mkIter (inp : Bytes) : EntriesFieldsInner :=
  { archive := { pos := 0, input := inp, ignore_zeros := false }, seekable := false,
    next := 0, raw := false, pax_extensions := none }

/-- An old-style header whose first byte was corrupted, so that its
stored checksum no longer matches (test-input helper). -/
def badCksumBlock : Bytes :=
  patch (mkOldHeader 48 (octalField 0 12)) 0 [65]

/-- Whether a poll outcome yields an entry (test observable). -/
def PollNext.isYield : PollNext → Bool
  | .entry (.ok _) => true
  | _ => false

/-! ### Concrete test inputs -/

/-- An old-style regular-file header with size 0. -/
def hdr000 : Bytes := mkOldHeader 48 (octalField 0 12)

/-- A PAX buffer with records "8 uid=7\n", "8 gid=9\n", "9 size=3\n". -/
def paxBufW : Bytes :=
  [56, 32, 117, 105, 100, 61, 55, 10] ++ [56, 32, 103, 105, 100, 61, 57, 10] ++
    [57, 32, 115, 105, 122, 101, 61, 51, 10]

/-- A PAX buffer with the single record "29 size=18446744073709551615\n"
(the largest u64). -/
def paxBufBig : Bytes :=
  [50, 57, 32, 115, 105, 122, 101, 61] ++
    [49, 56, 52, 52, 54, 55, 52, 52, 48, 55, 51, 55, 48, 57, 53, 53, 49, 54, 49, 53] ++ [10]

/-- A GNU sparse ('S') header: one descriptor (offset 0, length 512),
entry size 512, real size 512, not extended. -/
def sparseHdrW : Bytes :=
  withCksum (patch (patch (patch (patch (patch (patch (List.replicate 512 0)
    124 (octalField 512 12)) 156 [83]) 257 [117, 115, 116, 97, 114, 32]) 263 [32, 0])
    386 (octalField 0 12 ++ octalField 512 12)) 483 (octalField 512 12))

/-- The entry fields carrying `sparseHdrW` before sparse assembly. -/
def sparseEntryW : EntryFields :=
  { size := 512, header_pos := 0, file_pos := 512, data := [.data 512],
    header := { bytes := sparseHdrW } }

/-- An iterator over `hdr000` with an accumulated small PAX buffer. -/
def sPaxW : EntriesFieldsInner :=
  { mkIter hdr000 with pax_extensions := some paxBufW }

/-- An iterator over `hdr000` with an accumulated huge-size PAX
buffer. -/
def sPaxBigW : EntriesFieldsInner :=
  { mkIter hdr000 with pax_extensions := some paxBufBig }

/-- The iterator state after the header loop consumed `hdr000`. -/
def doneIter : EntriesFieldsInner :=
  { archive := { pos := 512, input := [], ignore_zeros := false }, seekable := false,
    next := 512, raw := false, pax_extensions := none }

/-- Like `doneIter` but carrying `paxBufBig`. -/
def doneIterPaxBig : EntriesFieldsInner :=
  { doneIter with pax_extensions := some paxBufBig }

/-- The entry emitted for `hdr000` without PAX overrides. -/
def rawEntryW : EntryFields :=
  { size := 0, header_pos := 0, file_pos := 512, data := [.data 0],
    header := { bytes := hdr000 } }

/-- The entry emitted for `hdr000` under `paxBufW` overrides. -/
def paxEntryW : EntryFields :=
  { size := 3, header_pos := 0, file_pos := 512, data := [.data 3],
    header := { bytes := hdr000, uidOv := some 7, gidOv := some 9 } }

/-- A GNU long-name ('L') header with size 0. -/
def lHdrW : Bytes := mkGnuHeader 76 (octalField 0 12)

/-- The entry emitted for `lHdrW`. -/
def lEntryW : EntryFields :=
  { size := 0, header_pos := 0, file_pos := 512, data := [.data 0],
    header := { bytes := lHdrW } }

/-- An iterator whose stream is a corrupted header followed by a valid
one. -/
def errIterW : EntriesFieldsInner := mkIter (badCksumBlock ++ hdr000)

/-- An iterator with `ignore_zeros` set over a single zero block. -/
def izIter : EntriesFieldsInner :=
  { archive := { pos := 0, input := List.replicate 512 0, ignore_zeros := true },
    seekable := false, next := 0, raw := false, pax_extensions := none }

/-- The state `izIter` reaches after skipping the zero block. -/
def izIterAfter : EntriesFieldsInner :=
  { archive := { pos := 512, input := [], ignore_zeros := true },
    seekable := false, next := 512, raw := false, pax_extensions := none }

/-- An archive holding a directory header then a file header. -/
def unpackArchiveW : ArchiveInner :=
  { pos := 0, input := mkOldHeader 53 (octalField 0 12) ++ hdr000, ignore_zeros := false }

/-- The directory entry of `unpackArchiveW`. -/
def dirEntryW : EntryFields :=
  { size := 0, header_pos := 0, file_pos := 512, data := [.data 0],
    header := { bytes := mkOldHeader 53 (octalField 0 12) } }

/-- The file entry of `unpackArchiveW`. -/
def fileEntryW : EntryFields :=
  { size := 0, header_pos := 512, file_pos := 1024, data := [.data 0],
    header := { bytes := hdr000 } }

/-! ### Helper lemmas -/

theorem foldl_add_init (l : List Nat) (a : Nat) :
    l.foldl (fun x y => x + y) a = a + l.foldl (fun x y => x + y) 0 := by
  induction l generalizing a with
  | nil => simp
  | cons b t ih =>
    simp only [List.foldl_cons]
    rw [ih (a + b), ih (0 + b)]
    omega

/-- The sum computed at lines 370-374 of `archive.rs` equals the
space-substituted sum of the claim. -/
theorem checksum_sum_eq (block : Bytes) :
    (block.take 148).foldl (fun a b => a + b) 0
      + (block.drop 156).foldl (fun a b => a + b) 0 + 8 * 32
    = checksumSpacedSum block := by
  have h1 : checksumSpacedSum block
      = (block.take 148).foldl (fun a b => a + b) 0 + 256
        + (block.drop 156).foldl (fun a b => a + b) 0 := by
    unfold checksumSpacedSum
    rw [List.foldl_append, List.foldl_append, foldl_add_init (List.replicate 8 32)]
    have hrep : (List.replicate 8 32).foldl (fun x y => x + y) 0 = 256 := by decide
    rw [hrep, foldl_add_init (block.drop 156)]
  rw [h1]
  omega

theorem skip_ok (s : EntriesFieldsInner) (amt : Nat) (h : amt ≤ s.archive.input.length)
    (h2 : amt ≤ I64_MAX) :
    skip s amt = (.ok (),
      { s with archive := { s.archive with
          pos := s.archive.pos + amt, input := s.archive.input.drop amt } }) := by
  unfold skip skipSeek skipRead
  split
  · rw [if_neg (by omega)]
  · rw [if_neg (by omega)]

theorem skip_input_le (s : EntriesFieldsInner) (amt : Nat) :
    ((skip s amt).2).archive.input.length ≤ s.archive.input.length := by
  unfold skip skipSeek skipRead
  split
  · split
    · simp
    · simp
  · split
    · simp
    · simp

theorem tryReadAll_full (a : ArchiveInner) (n : Nat) (h0 : n ≠ 0)
    (h : n ≤ a.input.length) :
    tryReadAll a n = (.ok (some (a.input.take n)),
      { a with pos := a.pos + n, input := a.input.drop n }) := by
  unfold tryReadAll
  rw [if_neg h0, if_neg (by omega), if_neg (by omega)]

theorem tryReadAll_empty (a : ArchiveInner) (n : Nat) (h0 : n ≠ 0)
    (h : a.input.length = 0) :
    tryReadAll a n = (.ok none, a) := by
  unfold tryReadAll
  rw [if_neg h0, if_pos h]

theorem tryReadAll_trunc (a : ArchiveInner) (n : Nat) (h1 : 0 < a.input.length)
    (h2 : a.input.length < n) :
    tryReadAll a n = (.error "failed to read entire block",
      { a with pos := a.pos + a.input.length, input := [] }) := by
  unfold tryReadAll
  rw [if_neg (by omega), if_neg (by omega), if_pos h2]

theorem tryReadAll_some_len {a a2 : ArchiveInner} {b : Bytes} {n : Nat}
    (h0 : n ≠ 0) (h : tryReadAll a n = (.ok (some b), a2)) :
    a2.input.length + n = a.input.length := by
  unfold tryReadAll at h
  split_ifs at h with h1 h2 h3
  · exact absurd h1 h0
  · simp at h
  · simp at h
  · simp only [Prod.mk.injEq] at h
    rw [← h.2]
    simp only [List.length_drop]
    omega

theorem readHeaderLoopF_congr : ∀ (f1 f2 : Nat) (s : EntriesFieldsInner) (hp : Nat),
    s.archive.input.length < f1 → s.archive.input.length < f2 →
    readHeaderLoopF f1 s hp = readHeaderLoopF f2 s hp := by
  intro f1
  induction f1 with
  | zero => intro f2 s hp h1 _; exact absurd h1 (Nat.not_lt_zero _)
  | succ n ih =>
    intro f2 s hp h1 h2
    cases f2 with
    | zero => exact absurd h2 (Nat.not_lt_zero _)
    | succ m =>
      simp only [readHeaderLoopF]
      split
      · rfl
      · rename_i u s1 hsk
        split
        · rfl
        · rfl
        · rename_i block a2 htr
          have hle1 : s1.archive.input.length ≤ s.archive.input.length := by
            have := skip_input_le s (s.next - s.archive.pos)
            rw [hsk] at this
            exact this
          have hlen : a2.input.length + 512 = s1.archive.input.length :=
            tryReadAll_some_len (by decide) htr
          split
          · rfl
          · split
            · rfl
            · have hb1 : a2.input.length < n := by omega
              have hb2 : a2.input.length < m := by omega
              exact ih m _ _ hb1 hb2

theorem readHeaderLoopF_pax : ∀ (f : Nat) (s : EntriesFieldsInner) (hp : Nat),
    ((readHeaderLoopF f s hp).2.pax_extensions = s.pax_extensions ∧
     (readHeaderLoopF f s hp).2.raw = s.raw ∧
     (readHeaderLoopF f s hp).2.seekable = s.seekable) := by
  intro f
  induction f with
  | zero => intro s hp; exact ⟨rfl, rfl, rfl⟩
  | succ n ih =>
    intro s hp
    simp only [readHeaderLoopF]
    split
    · rename_i e s1 hsk
      have hs1 : s1.pax_extensions = s.pax_extensions ∧ s1.raw = s.raw ∧
          s1.seekable = s.seekable := by
        unfold skip skipSeek skipRead at hsk
        split at hsk <;> simp only [Prod.mk.injEq] at hsk <;>
          exact hsk.2 ▸ ⟨rfl, rfl, rfl⟩
      exact hs1
    · rename_i u s1 hsk
      have hs1 : s1.pax_extensions = s.pax_extensions ∧ s1.raw = s.raw ∧
          s1.seekable = s.seekable := by
        unfold skip skipSeek skipRead at hsk
        split at hsk <;> simp only [Prod.mk.injEq] at hsk <;>
          exact hsk.2 ▸ ⟨rfl, rfl, rfl⟩
      split
      · exact hs1
      · exact hs1
      · rename_i block a2 htr
        split
        · exact hs1
        · split
          · exact hs1
          · have := ih { s1 with archive := a2, next := s1.next + 512 } (s1.next + 512)
            exact ⟨this.1.trans hs1.1, this.2.1.trans hs1.2.1, this.2.2.trans hs1.2.2⟩

theorem readHeaderLoop_pax (s : EntriesFieldsInner) (hp : Nat) :
    (readHeaderLoop s hp).2.pax_extensions = s.pax_extensions :=
  (readHeaderLoopF_pax _ s hp).1

theorem nextEntryRaw_pax (s : EntriesFieldsInner) :
    (nextEntryRaw s).2.pax_extensions = s.pax_extensions := by
  unfold nextEntryRaw
  split
  · rename_i e s1 hl
    have h := readHeaderLoop_pax s s.next
    rw [hl] at h
    exact h
  · rename_i s1 hl
    have h := readHeaderLoop_pax s s.next
    rw [hl] at h
    exact h
  · rename_i block headerPos s1 hl
    have h : s1.pax_extensions = s.pax_extensions := by
      have h0 := readHeaderLoop_pax s s.next
      rw [hl] at h0
      exact h0
    dsimp only
    repeat' split
    all_goals exact h

theorem header_overrides (ou og : Option Nat) (block : Bytes) :
    (match og with
     | some g => Header.setGid
         (match ou with
          | some u => Header.setUid { bytes := block } u
          | none => { bytes := block }) g
     | none =>
         (match ou with
          | some u => Header.setUid { bytes := block } u
          | none => { bytes := block }))
    = { bytes := block
        uidOv := ou
        gidOv := og } := by
  cases ou <;> cases og <;> rfl

theorem entrySizeRaw_mk (block : Bytes) (ou og : Option Nat) :
    Header.entrySizeRaw { bytes := block
                          uidOv := ou
                          gidOv := og }
    = parseNumeric (field block 124 12) := rfl

/-- Inversion of a successful `nextEntryRaw`: the shape of the emitted
entry and of the advanced iterator state. -/
theorem nextEntryRaw_ok_inv (s : EntriesFieldsInner) (e : EntryFields)
    (h : (nextEntryRaw s).1 = .ok (some e)) :
    ∃ block hp s1 hsize,
      readHeaderLoop s s.next = (.ok (some (block, hp)), s1) ∧
      parseNumeric (field block 124 12) = some hsize ∧
      s1.pax_extensions = s.pax_extensions ∧
      e.header = { bytes := block
                   uidOv := s1.pax_extensions.bind (fun p => pax_extensions_value p PAX_UID)
                   gidOv := s1.pax_extensions.bind (fun p => pax_extensions_value p PAX_GID) } ∧
      e.size = (if hsize = 0
        then (s1.pax_extensions.bind (fun p => pax_extensions_value p PAX_SIZE)).getD 0
        else hsize) ∧
      e.file_pos = s1.next ∧
      e.header_pos = hp ∧
      e.size + 511 < U64_MOD ∧
      (nextEntryRaw s).2 = { s1 with next := s1.next + ((e.size + 511) - (e.size + 511) % 512) } ∧
      s1.next + ((e.size + 511) - (e.size + 511) % 512) < U64_MOD := by
  unfold nextEntryRaw at h ⊢
  split at h
  · exact absurd h (by simp)
  · exact absurd h (by simp)
  · rename_i block hp s1 hl
    rw [hl]
    dsimp only at h ⊢
    rw [header_overrides] at h ⊢
    rw [entrySizeRaw_mk] at h ⊢
    split at h
    · exact absurd h (by simp)
    · rename_i ck hc
      split at h
      · exact absurd h (by simp)
      · rename_i hchk
        split at h
        · exact absurd h (by simp)
        · rename_i hsize hes
          have hpax : s1.pax_extensions = s.pax_extensions := by
            have h0 := readHeaderLoop_pax s s.next
            rw [hl] at h0
            exact h0
          split at h <;> rename_i hz0 <;>
            (split at h
             · exact absurd h (by simp)
             · rename_i hov1
               split at h
               · exact absurd h (by simp)
               · rename_i hov2
                 simp only [Except.ok.injEq, Option.some.injEq] at h
                 subst h
                 refine ⟨block, hp, s1, hsize, ?_, hes, hpax, rfl, ?_, rfl, rfl, ?_, ?_, ?_⟩
                 · simp [hz0, hchk, hov1, hov2]
                 · simp [hz0]
                 · dsimp only
                   omega
                 · simp [hz0, hchk, hov1, hov2]
                 · dsimp only
                   omega)

/-! ### Claim theorems -/

/-- Claim C1: for every 512-byte header block read by the entry iterator
that is not all zeros, the advance succeeds past checksum verification
only if the sum of all 512 bytes, with the 8 checksum bytes (offsets
148..155) each replaced by ASCII space (0x20), equals the ASCII-octal
number stored in the checksum field; on disagreement the advance fails
with a checksum-mismatch error. -/
theorem spec2proof_C1 (s : EntriesFieldsInner) (block : Bytes) (hp : Nat)
    (s1 : EntriesFieldsInner) (c : Nat)
    (hloop : readHeaderLoop s s.next = (.ok (some (block, hp)), s1))
    (hlen : block.length = 512)
    (hck : parseOctal (field block 148 8) = some c) :
    (checksumSpacedSum block ≠ c →
      (nextEntryRaw s).1 = .error "archive header checksum mismatch") ∧
    (checksumSpacedSum block = c →
      (nextEntryRaw s).1 ≠ .error "archive header checksum mismatch") := by
  have hsum := checksum_sum_eq block
  have hckv : Header.cksumVal { bytes := block } = some c := hck
  constructor
  · intro hne
    unfold nextEntryRaw
    rw [hloop]
    dsimp only
    rw [hckv]
    dsimp only
    rw [hsum, if_pos hne]
  · intro heq
    unfold nextEntryRaw
    rw [hloop]
    dsimp only
    rw [hckv]
    dsimp only
    rw [hsum, if_neg (by rw [heq]; exact fun hcon => hcon rfl)]
    repeat' split
    all_goals simp

/-- Claim C2: when the iterator advances to the next header, end of
input exactly at the start of the 512-byte header block yields no more
entries (not an error); end of input after reading part of the block is
a truncation error; an all-zero header block terminates iteration when
`ignore_zeros` is off, and when it is on the iterator advances 512 bytes
past it and retries reading a header.  The skip from the consumed
position to the next-header position must fit `i64` (`hdelta`), else the
seekable path fails with "seek position out of bounds" before the block
is read. -/
theorem spec2proof_C2 (s : EntriesFieldsInner) (hnp : s.archive.pos ≤ s.next)
    (hdelta : s.next - s.archive.pos ≤ I64_MAX) :
    (s.archive.input.length = s.next - s.archive.pos →
      (nextEntryRaw s).1 = .ok none) ∧
    (s.next - s.archive.pos < s.archive.input.length →
      s.archive.input.length < (s.next - s.archive.pos) + 512 →
      (nextEntryRaw s).1 = .error "failed to read entire block") ∧
    ((s.archive.input.drop (s.next - s.archive.pos)).take 512 = List.replicate 512 0 →
      512 ≤ s.archive.input.length - (s.next - s.archive.pos) →
      s.archive.ignore_zeros = false →
      (nextEntryRaw s).1 = .ok none) ∧
    ((s.archive.input.drop (s.next - s.archive.pos)).take 512 = List.replicate 512 0 →
      512 ≤ s.archive.input.length - (s.next - s.archive.pos) →
      s.archive.ignore_zeros = true →
      nextEntryRaw s = nextEntryRaw
        { s with
          archive := { s.archive with
            pos := s.archive.pos + (s.next - s.archive.pos) + 512,
            input := (s.archive.input.drop (s.next - s.archive.pos)).drop 512 },
          next := s.next + 512 }) := by
  have hzero : (List.replicate 512 0).all (fun i => (i == 0)) = true := by decide
  refine ⟨?_, ?_, ?_, ?_⟩
  · intro h
    unfold nextEntryRaw readHeaderLoop
    simp only [readHeaderLoopF]
    rw [skip_ok s _ (by omega) (by omega)]
    dsimp only
    rw [tryReadAll_empty _ 512 (by decide) (by simp [h])]
  · intro h1 h2
    unfold nextEntryRaw readHeaderLoop
    simp only [readHeaderLoopF]
    rw [skip_ok s _ (by omega) (by omega)]
    dsimp only
    rw [tryReadAll_trunc _ 512 (by simp; omega) (by simp; omega)]
  · intro hz hn hig
    unfold nextEntryRaw readHeaderLoop
    simp only [readHeaderLoopF]
    rw [skip_ok s _ (by omega) (by omega)]
    dsimp only
    rw [tryReadAll_full _ 512 (by decide) (by simp; omega)]
    dsimp only
    rw [hz, hzero]
    simp only [Bool.not_true, Bool.false_eq_true, if_false, hig, Bool.not_false, if_true]
  · intro hz hn hig
    have hkey : readHeaderLoop s s.next = readHeaderLoop
        { s with
          archive := { s.archive with
            pos := s.archive.pos + (s.next - s.archive.pos) + 512,
            input := (s.archive.input.drop (s.next - s.archive.pos)).drop 512 },
          next := s.next + 512 } (s.next + 512) := by
      unfold readHeaderLoop
      have hstep : readHeaderLoopF (s.archive.input.length + 1) s s.next
          = readHeaderLoopF s.archive.input.length
            { s with
              archive := { s.archive with
                pos := s.archive.pos + (s.next - s.archive.pos) + 512,
                input := (s.archive.input.drop (s.next - s.archive.pos)).drop 512 },
              next := s.next + 512 } (s.next + 512) := by
        simp only [readHeaderLoopF]
        rw [skip_ok s _ (by omega) (by omega)]
        dsimp only
        rw [tryReadAll_full _ 512 (by decide) (by simp; omega)]
        dsimp only
        rw [hz, hzero]
        simp only [Bool.not_true, Bool.false_eq_true, if_false, hig, Bool.not_false, if_true]
      rw [hstep]
      exact readHeaderLoopF_congr _ _ _ _ (by simp; omega) (by simp)
    unfold nextEntryRaw
    rw [hkey]

/-- Claim C4: when a PAX buffer has been accumulated for the entry being
parsed, the header's uid and gid are overridden by the PAX `uid` and
`gid` values whenever those keys are present, and the effective entry
size is taken from the PAX `size` key only when the header's own size
field parses to 0; a PAX `size` on an entry whose header size is
non-zero does not override the header size. -/
theorem spec2proof_C4 (s : EntriesFieldsInner) (p : Bytes) (e : EntryFields)
    (hpax : s.pax_extensions = some p)
    (hrun : (nextEntryRaw s).1 = .ok (some e)) :
    (∀ u, pax_extensions_value p PAX_UID = some u → Header.uidVal e.header = some u) ∧
    (∀ g, pax_extensions_value p PAX_GID = some g → Header.gidVal e.header = some g) ∧
    (∀ n, Header.entrySizeRaw e.header = some n → n ≠ 0 → e.size = n) ∧
    (Header.entrySizeRaw e.header = some 0 →
      ∀ z, pax_extensions_value p PAX_SIZE = some z → e.size = z) := by
  obtain ⟨block, hp, s1, hsize, hl, hes, hpax1, hh, hsz, _, _, _, _, _⟩ :=
    nextEntryRaw_ok_inv s e hrun
  rw [hpax] at hpax1
  refine ⟨?_, ?_, ?_, ?_⟩
  · intro u hu
    rw [hh]
    simp [Header.uidVal, hpax1, hu]
  · intro g hg
    rw [hh]
    simp [Header.gidVal, hpax1, hg]
  · intro n hn hn0
    rw [hh, entrySizeRaw_mk, hes] at hn
    simp only [Option.some.injEq] at hn
    subst hn
    rw [hsz, if_neg hn0]
  · intro h0 z hz
    rw [hh, entrySizeRaw_mk, hes] at h0
    simp only [Option.some.injEq] at h0
    rw [hsz, if_pos h0]
    simp [hpax1, hz]

/-- Claim C5: for every emitted entry, the position of the next header
equals the body-start position plus the entry's effective size rounded
up to a multiple of 512; if the rounding (size + 511) or the addition to
the current position overflows u64, the advance fails with a size
overflow error instead of emitting the entry's successor position. -/
theorem spec2proof_C5 (s : EntriesFieldsInner) (block : Bytes) (hp : Nat)
    (s1 : EntriesFieldsInner) (c hsize sz : Nat) :
    (∀ e, (nextEntryRaw s).1 = .ok (some e) →
      (nextEntryRaw s).2.next = e.file_pos + roundUp512 e.size ∧
      e.file_pos + roundUp512 e.size < U64_MOD) ∧
    (readHeaderLoop s s.next = (.ok (some (block, hp)), s1) →
      parseOctal (field block 148 8) = some c →
      checksumSpacedSum block = c →
      parseNumeric (field block 124 12) = some hsize →
      sz = (if hsize = 0
        then (s1.pax_extensions.bind (fun p => pax_extensions_value p PAX_SIZE)).getD 0
        else hsize) →
      (U64_MOD ≤ sz + 511 ∨ U64_MOD ≤ s1.next + ((sz + 511) - (sz + 511) % 512)) →
      (nextEntryRaw s).1 = .error "size overflow") := by
  constructor
  · intro e h
    obtain ⟨b, hp', s1', hs, hl, hes, hpaxp, hh, hsze, hfp, hhp, hbound, hst, hb2⟩ :=
      nextEntryRaw_ok_inv s e h
    have hr : (e.size + 511) - (e.size + 511) % 512 = roundUp512 e.size := by
      unfold roundUp512
      omega
    constructor
    · rw [hst]
      dsimp only
      rw [hfp, ← hr]
    · rw [hfp, ← hr]
      exact hb2
  · intro hloop hck hsum hes hsz hov
    have hckv : Header.cksumVal { bytes := block } = some c := hck
    unfold nextEntryRaw
    rw [hloop]
    dsimp only
    rw [hckv]
    dsimp only
    rw [checksum_sum_eq block, if_neg (by rw [hsum]; exact fun hcon => hcon rfl)]
    rw [header_overrides, entrySizeRaw_mk, hes]
    dsimp only
    rw [← hsz]
    by_cases h1 : U64_MOD ≤ sz + 511
    · rw [if_pos h1]
    · rw [if_neg h1]
      rcases hov with h2 | h2
      · exact absurd h2 h1
      · rw [if_pos h2]

/-- Claim C3: for a GNU sparse entry, the assembler processes every
non-all-zero descriptor (offset, length) in order, maintaining cursors
`cur` (initially 0) and `remaining` (initially the entry size): it fails
if length > 0 and (size − remaining) is not a multiple of 512, fails if
offset < cur, appends a zero-pad segment of (offset − cur) bytes if
offset > cur, then appends a data segment of length bytes, sets
cur := offset + length (u64 overflow checked) and
remaining := remaining − length (underflow checked); after all inline
descriptors and any extension blocks, it fails unless cur equals the
header's declared real-size and remaining equals zero, and the emitted
entry's logical size is set to cur. -/
theorem spec2proof_C3 (size off len : Nat) (st : SparseSt) (b : GnuSparseHeader)
    (e : EntryFields) (s s1 : EntriesFieldsInner) (st1 st2 : SparseSt) (rs : Nat) :
    (b.isEmpty = true → addBlock size st b = .ok st) ∧
    (b.isEmpty = false → b.offset = some off → b.length = some len →
      len ≠ 0 → (size - st.remaining) % 512 ≠ 0 →
      addBlock size st b =
        .error "previous block in sparse file was not aligned to 512-byte boundary") ∧
    (b.isEmpty = false → b.offset = some off → b.length = some len →
      ¬(len ≠ 0 ∧ (size - st.remaining) % 512 ≠ 0) → off < st.cur →
      addBlock size st b = .error "out of order or overlapping sparse blocks") ∧
    (b.isEmpty = false → b.offset = some off → b.length = some len →
      ¬(len ≠ 0 ∧ (size - st.remaining) % 512 ≠ 0) → st.cur ≤ off →
      U64_MOD ≤ off + len →
      addBlock size st b = .error "more bytes listed in sparse file than u64 can hold") ∧
    (b.isEmpty = false → b.offset = some off → b.length = some len →
      ¬(len ≠ 0 ∧ (size - st.remaining) % 512 ≠ 0) → st.cur ≤ off →
      off + len < U64_MOD → st.remaining < len →
      addBlock size st b = .error "sparse file consumed more data than the header listed") ∧
    (b.isEmpty = false → b.offset = some off → b.length = some len →
      ¬(len ≠ 0 ∧ (size - st.remaining) % 512 ≠ 0) → st.cur ≤ off →
      off + len < U64_MOD → len ≤ st.remaining →
      addBlock size st b = .ok ⟨off + len, st.remaining - len,
        (if st.cur < off then st.data ++ [.pad (off - st.cur)] else st.data) ++ [.data len]⟩) ∧
    (e.header.typeflag = 83 → e.header.isGnu = true →
      (gnuSparseInline e.header).foldlM (addBlock e.size) ⟨0, e.size, []⟩ = .ok st1 →
      ((gnuIsExtended e.header = false ∧ st1 = st2 ∧ s1 = s) ∨
       (gnuIsExtended e.header = true ∧
         parseSparseExtF (s.archive.input.length + 1) e.size s st1 = (.ok st2, s1))) →
      gnuRealSize e.header = some rs →
      ((st2.cur ≠ rs → parseSparseHeader s e =
          (.error "mismatch in sparse file chunks and size in header", s1)) ∧
       (st2.cur = rs → 0 < st2.remaining → parseSparseHeader s e =
          (.error "mismatch in sparse file chunks and entry size in header", s1)) ∧
       (st2.cur = rs → st2.remaining = 0 → parseSparseHeader s e =
          (.ok { e with size := st2.cur, data := st2.data }, s1)))) := by
  refine ⟨?_, ?_, ?_, ?_, ?_, ?_, ?_⟩
  · intro he
    unfold addBlock
    rw [if_pos he]
  · intro he ho hl h1 h2
    simp only [addBlock, he, Bool.false_eq_true, if_false, ho, hl]
    rw [if_pos ⟨h1, h2⟩]
  · intro he ho hl h12 hoff
    simp only [addBlock, he, Bool.false_eq_true, if_false, ho, hl]
    rw [if_neg h12, if_pos hoff]
  · intro he ho hl h12 hoff hov
    simp only [addBlock, he, Bool.false_eq_true, if_false, ho, hl]
    rw [if_neg h12, if_neg (by omega), if_pos hov]
  · intro he ho hl h12 hoff hov hrem
    simp only [addBlock, he, Bool.false_eq_true, if_false, ho, hl]
    rw [if_neg h12, if_neg (by omega), if_neg (by omega), if_pos hrem]
  · intro he ho hl h12 hoff hov hrem
    simp only [addBlock, he, Bool.false_eq_true, if_false, ho, hl]
    rw [if_neg h12, if_neg (by omega), if_neg (by omega), if_neg (by omega)]
  · intro ht hg hfold hxor hrs
    have hmain : parseSparseHeader s e =
        (if st2.cur ≠ rs then
          (.error "mismatch in sparse file chunks and size in header", s1)
        else if 0 < st2.remaining then
          (.error "mismatch in sparse file chunks and entry size in header", s1)
        else (.ok { e with size := st2.cur, data := st2.data }, s1)) := by
      unfold parseSparseHeader
      rw [ht, if_neg (fun hc => hc rfl)]
      simp only [hg, Bool.not_true, Bool.false_eq_true, if_false]
      rw [hfold]
      dsimp only
      rcases hxor with ⟨hnx, h12, h13⟩ | ⟨hx, hext⟩
      · subst h12
        subst h13
        simp only [hnx, Bool.false_eq_true, if_false]
        rw [hrs]
      · simp only [hx, if_true]
        rw [hext]
        dsimp only
        rw [hrs]
    refine ⟨?_, ?_, ?_⟩
    · intro hne
      rw [hmain, if_pos hne]
    · intro heq hrem
      rw [hmain, if_neg (fun hc => hc heq), if_pos hrem]
    · intro heq hrem
      rw [hmain, if_neg (fun hc => hc heq), if_neg (by omega)]

/-- Claim C6: in non-raw iteration, encountering a second GNU long-name
('L'), long-link ('K') or PAX-extension ('x') auxiliary entry before a
real member fails the advance with a duplicate-auxiliary error, and
reaching end-of-archive after at least one auxiliary entry has been
consumed fails with a dangling-auxiliary error rather than returning no
more entries. -/
theorem spec2proof_C6 (f p : Nat) (s : EntriesFieldsInner) (gl gk : Option Bytes)
    (nm lk pb : Bytes) (e : EntryFields) :
    ((nextEntryRaw s).1 = .ok (some e) → isRecognizedHeader e = true →
      typeflagOf e = 76 →
      (nextEntryLoopF (f + 1) s (some nm) gk p).1 =
        .error "two long name entries describing the same member") ∧
    ((nextEntryRaw s).1 = .ok (some e) → isRecognizedHeader e = true →
      typeflagOf e = 75 →
      (nextEntryLoopF (f + 1) s gl (some lk) p).1 =
        .error "two long name entries describing the same member") ∧
    ((nextEntryRaw s).1 = .ok (some e) → isRecognizedHeader e = true →
      typeflagOf e = 120 → s.pax_extensions = some pb →
      (nextEntryLoopF (f + 1) s gl gk p).1 =
        .error "two pax extensions entries describing the same member") ∧
    ((nextEntryRaw s).1 = .ok none → 1 ≤ p →
      (nextEntryLoopF (f + 1) s gl gk p).1 =
        .error "members found describing a future member but no future member found") := by
  refine ⟨?_, ?_, ?_, ?_⟩
  · intro h hrec htf
    cases hraw : nextEntryRaw s with
    | mk r s1 =>
      rw [hraw] at h
      subst h
      simp only [nextEntryLoopF]
      rw [hraw]
      simp [hrec, htf]
  · intro h hrec htf
    cases hraw : nextEntryRaw s with
    | mk r s1 =>
      rw [hraw] at h
      subst h
      simp only [nextEntryLoopF]
      rw [hraw]
      simp [hrec, htf]
  · intro h hrec htf hpb
    cases hraw : nextEntryRaw s with
    | mk r s1 =>
      have hp1 : s1.pax_extensions = some pb := by
        have h0 := nextEntryRaw_pax s
        rw [hraw] at h0
        rw [h0]
        exact hpb
      rw [hraw] at h
      subst h
      simp only [nextEntryLoopF]
      rw [hraw]
      simp [hrec, htf, hp1]
  · intro h hp
    cases hraw : nextEntryRaw s with
    | mk r s1 =>
      rw [hraw] at h
      subst h
      simp only [nextEntryLoopF]
      rw [hraw]
      dsimp only
      rw [if_pos (by omega)]

/-- Claim C7 (amended): after the entry iterator has reported true
end-of-archive, it is in the terminal `Empty` state (`is_terminated` is
true), and a subsequent poll panics — it does not yield an entry or a
further `None`. -/
theorem spec2proof_C7 (st : EntriesFieldsState) (h : (pollNext st).1 = .done) :
    (pollNext st).2 = .empty ∧ is_terminated (pollNext st).2 = true ∧
    (pollNext (pollNext st).2).1 = .panicked := by
  cases st with
  | empty => exact absurd h (by simp [pollNext])
  | value v =>
    unfold pollNext at h ⊢
    dsimp only at h ⊢
    split at h
    · simp at h
    · simp at h
    · exact ⟨rfl, rfl, rfl⟩

/-- Claim C7 as stated is false on the code: on an empty archive the
first poll reports end of archive, and the next poll panics instead of
returning `None` again. -/
theorem spec2proof_C7_counterexample :
    (pollNext (.value (mkIter []))).1 = .done ∧
    (pollNext (pollNext (.value (mkIter []))).2).1 = .panicked ∧
    (pollNext (pollNext (.value (mkIter []))).2).1 ≠ .done := by
  decide

/-- Claim C8 (amended): an error during an advance does not terminate
the entry iterator: the stream state is put back to `Value` with the
advanced iterator state (`is_terminated` stays false), so a subsequent
advance retries parsing at the recorded next-header position and may
yield further entries. -/
theorem spec2proof_C8 (v : EntriesFieldsInner) (er : String) (st2 : EntriesFieldsState)
    (h : pollNext (.value v) = (.entry (.error er), st2)) :
    st2 = .value (nextEntry v).2 ∧ is_terminated st2 = false := by
  unfold pollNext at h
  dsimp only at h
  split at h
  · rename_i e0 v1 hne
    simp only [Prod.mk.injEq] at h
    rw [← h.2]
    refine ⟨?_, rfl⟩
    rw [hne]
  · simp at h
  · simp at h

/-- Claim C8 as stated is false on the code: after a checksum-mismatch
error, the next advance yields a further entry. -/
theorem spec2proof_C8_counterexample :
    (pollNext (.value (mkIter (badCksumBlock ++ mkOldHeader 48 (octalField 0 12))))).1
      = .entry (.error "archive header checksum mismatch") ∧
    PollNext.isYield
      (pollNext (pollNext
        (.value (mkIter (badCksumBlock ++ mkOldHeader 48 (octalField 0 12))))).2).1
      = true := by
  decide

theorem unpackLoopF_spec : ∀ (fuel : Nat) (s : EntriesFieldsInner) (dst : List Nat)
    (es : List EntryFields),
    entriesListF fuel s = some es →
    unpackLoopF fuel s dst =
      .ok ((es.filter (fun e => !isDirEntry e)).map (fun e => .unpackIn e dst),
           es.filter isDirEntry) := by
  intro fuel
  induction fuel with
  | zero => intro s dst es h; exact absurd h (by simp [entriesListF])
  | succ n ih =>
    intro s dst es h
    simp only [entriesListF] at h
    simp only [unpackLoopF]
    split at h
    · simp at h
    · simp only [Option.some.injEq] at h
      subst h
      simp
    · rename_i e s1 hne
      cases hrec : entriesListF n s1 with
      | none => rw [hrec] at h; simp at h
      | some es2 =>
        rw [hrec] at h
        simp only [Option.map_some', Option.some.injEq] at h
        subst h
        rw [ih s1 dst es2 hrec]
        by_cases hd : isDirEntry e = true
        · rw [if_pos hd]
          simp [Except.map, List.filter_cons, hd]
        · rw [if_neg hd]
          simp only [Bool.not_eq_true] at hd
          simp [Except.map, List.filter_cons, hd]

/-- Claim C9: `unpack(dst)` first creates `dst` (including parents) when
it does not exist, canonicalizes `dst` falling back to the literal path
on failure, then extracts non-directory entries immediately in archive
order while queuing directory entries, and extracts the queued directory
entries only after all other entries have been processed. -/
theorem spec2proof_C9 (dstExists : Bool) (canon : Option (List Nat)) (dst : List Nat)
    (a : ArchiveInner) (es : List EntryFields)
    (hpos : a.pos = 0)
    (hes : entriesListF (a.input.length + 1)
      { archive := a, seekable := false, next := 0, raw := false, pax_extensions := none }
      = some es) :
    _unpack dstExists canon dst a =
      .ok ((if dstExists then [] else [.createDirAll dst]) ++
        (es.filter (fun e => !isDirEntry e)).map (fun e => .unpackIn e (canon.getD dst)) ++
        (es.filter isDirEntry).map (fun e => .unpackIn e (canon.getD dst))) := by
  have hent : _entries a false
      = .ok { archive := a, seekable := false, next := 0, raw := false, pax_extensions := none } := by
    unfold _entries
    exact if_neg (fun hc => hc hpos)
  unfold _unpack
  rw [hent]
  dsimp only
  rw [unpackLoopF_spec _ _ _ es hes]

/-- Claim C10: constructing the entry iterator — via `entries`,
`entries_with_seek`, or internally by `unpack` — fails with the error
"cannot call entries unless archive is at position 0" whenever the
archive's consumed-byte position is nonzero; iteration can only be
started when the position counter is 0. -/
theorem spec2proof_C10 (a : ArchiveInner) (seekable dstExists : Bool)
    (canon : Option (List Nat)) (dst : List Nat) :
    (a.pos ≠ 0 →
      _entries a seekable = .error "cannot call entries unless archive is at position 0" ∧
      entries a = .error "cannot call entries unless archive is at position 0" ∧
      entries_with_seek a = .error "cannot call entries unless archive is at position 0" ∧
      _unpack dstExists canon dst a =
        .error "cannot call entries unless archive is at position 0") ∧
    (a.pos = 0 →
      _entries a seekable = .ok { archive := a
                                  seekable := seekable
                                  next := 0
                                  raw := false
                                  pax_extensions := none }) := by
  constructor
  · intro h
    have he : ∀ sk, _entries a sk
        = .error "cannot call entries unless archive is at position 0" := by
      intro sk
      unfold _entries
      rw [if_pos h]
    refine ⟨he seekable, he false, he true, ?_⟩
    unfold _unpack
    rw [he false]
  · intro h
    unfold _entries
    rw [if_neg (fun hc => hc h)]

/-! ### Witnesses -/

theorem spec2proof_C1_witness :
    (nextEntryRaw (mkIter hdr000)).1 ≠ .error "archive header checksum mismatch" ∧
    (nextEntryRaw (mkIter badCksumBlock)).1 = .error "archive header checksum mismatch" :=
  ⟨(spec2proof_C1 (mkIter hdr000) hdr000 0 doneIter 832
      (by decide) (by decide) (by decide)).2 (by decide),
   (spec2proof_C1 (mkIter badCksumBlock) badCksumBlock 0 doneIter 832
      (by decide) (by decide) (by decide)).1 (by decide)⟩

theorem spec2proof_C2_witness :
    (nextEntryRaw (mkIter [])).1 = .ok none ∧
    (nextEntryRaw (mkIter (List.replicate 100 1))).1 = .error "failed to read entire block" ∧
    (nextEntryRaw (mkIter (List.replicate 512 0))).1 = .ok none ∧
    nextEntryRaw izIter = nextEntryRaw izIterAfter :=
  ⟨(spec2proof_C2 (mkIter []) (by decide) (by decide)).1 (by decide),
   (spec2proof_C2 (mkIter (List.replicate 100 1)) (by decide) (by decide)).2.1
      (by decide) (by decide),
   (spec2proof_C2 (mkIter (List.replicate 512 0)) (by decide) (by decide)).2.2.1
      (by decide) (by decide) (by decide),
   (spec2proof_C2 izIter (by decide) (by decide)).2.2.2 (by decide) (by decide) (by decide)⟩

theorem spec2proof_C3_witness :
    addBlock 512 ⟨0, 512, []⟩ ⟨octalField 0 12, octalField 512 12⟩
      = .ok ⟨512, 0, [.data 512]⟩ ∧
    addBlock 512 ⟨0, 100, []⟩ ⟨octalField 0 12, octalField 512 12⟩
      = .error "previous block in sparse file was not aligned to 512-byte boundary" ∧
    parseSparseHeader (mkIter []) sparseEntryW
      = (.ok { sparseEntryW with size := 512, data := [.data 512] }, mkIter []) :=
  ⟨(spec2proof_C3 512 0 512 ⟨0, 512, []⟩ ⟨octalField 0 12, octalField 512 12⟩ sparseEntryW
      (mkIter []) (mkIter []) ⟨512, 0, [.data 512]⟩ ⟨512, 0, [.data 512]⟩ 512).2.2.2.2.2.1
      (by decide) (by decide) (by decide) (by decide) (by decide) (by decide) (by decide),
   (spec2proof_C3 512 0 512 ⟨0, 100, []⟩ ⟨octalField 0 12, octalField 512 12⟩ sparseEntryW
      (mkIter []) (mkIter []) ⟨512, 0, [.data 512]⟩ ⟨512, 0, [.data 512]⟩ 512).2.1
      (by decide) (by decide) (by decide) (by decide) (by decide),
   ((spec2proof_C3 512 0 512 ⟨0, 512, []⟩ ⟨octalField 0 12, octalField 512 12⟩ sparseEntryW
      (mkIter []) (mkIter []) ⟨512, 0, [.data 512]⟩ ⟨512, 0, [.data 512]⟩ 512).2.2.2.2.2.2
      (by decide) (by decide) (by decide) (Or.inl ⟨by decide, rfl, rfl⟩) (by decide)).2.2
      rfl rfl⟩

theorem spec2proof_C4_witness :
    Header.uidVal paxEntryW.header = some 7 ∧
    Header.gidVal paxEntryW.header = some 9 ∧
    paxEntryW.size = 3 :=
  ⟨(spec2proof_C4 sPaxW paxBufW paxEntryW rfl (by decide)).1 7 (by decide),
   (spec2proof_C4 sPaxW paxBufW paxEntryW rfl (by decide)).2.1 9 (by decide),
   (spec2proof_C4 sPaxW paxBufW paxEntryW rfl (by decide)).2.2.2 (by decide) 3 (by decide)⟩

theorem spec2proof_C5_witness :
    ((nextEntryRaw (mkIter hdr000)).2.next = rawEntryW.file_pos + roundUp512 rawEntryW.size ∧
      rawEntryW.file_pos + roundUp512 rawEntryW.size < U64_MOD) ∧
    (nextEntryRaw sPaxBigW).1 = .error "size overflow" :=
  ⟨(spec2proof_C5 (mkIter hdr000) [] 0 (mkIter []) 0 0 0).1 rawEntryW (by decide),
   (spec2proof_C5 sPaxBigW hdr000 0 doneIterPaxBig 832 0 18446744073709551615).2
      (by decide) (by decide) (by decide) (by decide) (by decide) (Or.inl (by decide))⟩

theorem spec2proof_C6_witness :
    (nextEntryLoopF 6 (mkIter lHdrW) (some []) none 1).1
      = .error "two long name entries describing the same member" ∧
    (nextEntryLoopF 1 (mkIter []) none none 1).1
      = .error "members found describing a future member but no future member found" :=
  ⟨(spec2proof_C6 5 1 (mkIter lHdrW) none none [] [] [] lEntryW).1
      (by decide) (by decide) (by decide),
   (spec2proof_C6 0 1 (mkIter []) none none [] [] [] lEntryW).2.2.2 (by decide) (by decide)⟩

theorem spec2proof_C7_witness :
    (pollNext (.value (mkIter []))).2 = .empty ∧
    is_terminated (pollNext (.value (mkIter []))).2 = true ∧
    (pollNext (pollNext (.value (mkIter []))).2).1 = .panicked :=
  spec2proof_C7 (.value (mkIter [])) (by decide)

theorem spec2proof_C8_witness :
    EntriesFieldsState.value (nextEntry errIterW).2 = .value (nextEntry errIterW).2 ∧
    is_terminated (.value (nextEntry errIterW).2) = false :=
  spec2proof_C8 errIterW "archive header checksum mismatch"
    (.value (nextEntry errIterW).2) (by decide)

theorem spec2proof_C9_witness :
    _unpack false (some [97]) [100] unpackArchiveW
      = .ok [.createDirAll [100], .unpackIn fileEntryW [97], .unpackIn dirEntryW [97]] :=
  spec2proof_C9 false (some [97]) [100] unpackArchiveW [dirEntryW, fileEntryW]
    rfl (by decide)

theorem spec2proof_C10_witness :
    _entries { pos := 7, input := [], ignore_zeros := false } true
      = .error "cannot call entries unless archive is at position 0" ∧
    _unpack false none [] { pos := 7, input := [], ignore_zeros := false }
      = .error "cannot call entries unless archive is at position 0" ∧
    _entries { pos := 0, input := [], ignore_zeros := false } false = .ok (mkIter []) :=
  ⟨((spec2proof_C10 { pos := 7, input := [], ignore_zeros := false } true false none []).1
      (by decide)).1,
   ((spec2proof_C10 { pos := 7, input := [], ignore_zeros := false } true false none []).1
      (by decide)).2.2.2,
   (spec2proof_C10 { pos := 0, input := [], ignore_zeros := false } false false none []).2 rfl⟩

end TarRs
